import Mathlib

/-!
Shallow embedding of `src/overload/__init__.py`, a call-signature based
multiple-dispatch library for Python.  The dispatcher object
`FunctionOverload` keeps an ordered candidate list; `_dispatch` tries the
candidates in registration order (bind the arguments, then check the
declared parameter types) and `__call__` invokes the first survivor.
The decorator `overload` collapses same-named definitions found in the
caller's local scope into one group and optionally publishes every
candidate to `typing._overload_registry`.

Python values and classes are modelled by small concrete universes;
machine state (`self._fns` mutation, `frame.f_locals`, the ledger) is
modelled by explicit state passing.
-/

namespace Overload

/-- Python runtime values, restricted to a small concrete universe large
enough to exercise the dispatcher (`bool` and `int` are distinct value
shapes because `bool` is a subclass of `int` for `isinstance`). -/
inductive Value where
  | vInt (n : Int)
  | vBool (b : Bool)
  | vStr (s : String)
  | vFloat (id : Nat)
  | vNoneObj
  | vObj (id : Nat)
deriving DecidableEq

/-- Class objects that can appear as a parameter annotation; `any` stands
for `typing.Any`, the other constructors for concrete builtin classes. -/
inductive PyType where
  | int
  | bool
  | str
  | float
  | obj
  | any
deriving DecidableEq

/-- The host's instance check for proper classes: `bool` is a subclass of
`int`, and every value is an instance of `object`. -/
def instOf : Value → PyType → Bool
  | _, PyType.obj => true
  | Value.vInt _, PyType.int => true
  | Value.vBool _, PyType.int => true
  | Value.vBool _, PyType.bool => true
  | Value.vStr _, PyType.str => true
  | Value.vFloat _, PyType.float => true
  | _, _ => false

/-- `isinstance(value, typ)`: in CPython, `typing.Any` used as the second
argument of `isinstance` raises a `TypeError` (its meta-class
`__instancecheck__` refuses); for the concrete classes it answers the
host instance check. -/
def pyIsinstance (v : Value) (t : PyType) : Except Unit Bool :=
  if t = PyType.any then Except.error () else Except.ok (instOf v t)

/-- One formal parameter of positional-or-keyword kind: its name, its
optional declared type (`ann`; `none` models `Parameter.empty`) and its
optional declared default value. -/
structure Param where
  name : String
  ann : Option PyType
  dflt : Option Value
deriving DecidableEq

/-- One candidate implementation: the identity data the ledger keys on
(`__module__`, `__qualname__`, `__code__.co_firstlineno`), the name used
by the decorator (`__name__`), the parameter list of its signature, and
its executable body.  The body receives the bound arguments and either
returns a value or raises an exception (`Except.error`). -/
structure Fn where
  module : String
  qualname : String
  firstlineno : Nat
  pyName : String
  params : List Param
  body : List (Param × Value) → Except String Value

/-- Keyword-argument lookup. -/
def lookupKw (kwargs : List (String × Value)) (n : String) : Option Value :=
  match kwargs.find? (fun kv => kv.1 == n) with
  | some kv => some kv.2
  | none => none

/-- Bind the parameters that the positional arguments left unfilled: use
the supplied keyword value when there is one, otherwise the declared
default (this is `bound.apply_defaults()`), otherwise fail the way
`sig.bind` fails on a missing required argument. -/
def bindRest (kwargs : List (String × Value)) :
    List Param → Option (List (Param × Value))
  | [] => some []
  | p :: ps =>
    match lookupKw kwargs p.name with
    | some v => (bindRest kwargs ps).map (fun r => (p, v) :: r)
    | none =>
      match p.dflt with
      | some d => (bindRest kwargs ps).map (fun r => (p, d) :: r)
      | none => none

/-- `sig.bind(*args, **kwargs)` followed by `bound.apply_defaults()` for a
signature of positional-or-keyword parameters.  `none` models the
`TypeError` raised by `bind`: too many positional arguments, a keyword
that names no parameter, a keyword for a slot already filled
positionally, or a missing required argument.  `some` returns
`bound.arguments` in parameter order with defaults applied. -/
def bindArgs (params : List Param) (args : List Value)
    (kwargs : List (String × Value)) : Option (List (Param × Value)) :=
  if params.length < args.length then none
  else if kwargs.any (fun kv => !(params.any (fun p => p.name == kv.1))) then none
  else if kwargs.any (fun kv => (params.take args.length).any (fun p => p.name == kv.1)) then none
  else
    match bindRest kwargs (params.drop args.length) with
    | some r => some ((params.take args.length).zip args ++ r)
    | none => none

/-- The per-parameter body of the type-hint loop in
`FunctionOverload._dispatch`, translated branch for branch:
`if typ is Parameter.empty` accept; `elif isinstance(value, typ)` accept
(but a `TypeError` raised by `isinstance` itself — which is what happens
when `typ` is `typing.Any` — propagates); `elif typ is Any` accept;
`else raise TypeError()`. -/
def checkOne (ann : Option PyType) (v : Value) : Except Unit Unit :=
  match ann with
  | none => Except.ok ()
  | some t =>
    match pyIsinstance v t with
    | Except.error e => Except.error e
    | Except.ok true => Except.ok ()
    | Except.ok false =>
      if t = PyType.any then Except.ok () else Except.error ()

/-- The type-hint loop over all bound arguments, stopping at the first
parameter whose check raises. -/
def checkAll : List (Param × Value) → Except Unit Unit
  | [] => Except.ok ()
  | (p, v) :: rest =>
    match checkOne p.ann v with
    | Except.error e => Except.error e
    | Except.ok _ => checkAll rest

/-- The guarded `try` block of `_dispatch` for one candidate: `true` iff
the arguments bind to the candidate's signature and every bound argument
passes the type-hint check; any `TypeError` inside the block is caught
and means this candidate falls through. -/
def fnMatches (fn : Fn) (args : List Value)
    (kwargs : List (String × Value)) : Bool :=
  match bindArgs fn.params args kwargs with
  | none => false
  | some bound =>
    match checkAll bound with
    | Except.error _ => false
    | Except.ok _ => true

/-- The dispatcher object: a diagnostic `name`, the `register` flag
controlling ledger publication, and the ordered candidate sequence
`self._fns` (list mutation is modelled by state passing). -/
structure FunctionOverload where
  name : String
  register : Bool
  fns : List Fn

/-- The external overload ledger (`typing._overload_registry`), keyed by
(defining module, qualified name, first source line). -/
abbrev Ledger := List ((String × String × Nat) × Fn)

/-- Dictionary assignment `reg[m][q][line] = fn`: replace the entry under
the key when present, otherwise add a new one. -/
def ledgerSet : Ledger → String × String × Nat → Fn → Ledger
  | [], key, fn => [(key, fn)]
  | (key', fn') :: rest, key, fn =>
    if key' = key then (key, fn) :: rest
    else (key', fn') :: ledgerSet rest key fn

/-- `FunctionOverload.add`: append the candidate to `self._fns`, publish
it to the ledger when `self.register` holds, and return the (updated)
group itself so registration can be chained. -/
def FunctionOverload.add (g : FunctionOverload) (fn : Fn) (l : Ledger) :
    FunctionOverload × Ledger :=
  ({ g with fns := g.fns ++ [fn] },
   if g.register then ledgerSet l (fn.module, fn.qualname, fn.firstlineno) fn
   else l)

/-- The message of the `TypeError` raised when every candidate was
rejected; it interpolates `self.name`. -/
def noMatchMsg (name : String) : String :=
  "no matching overload for function `" ++ name ++ "` and call signature"

/-- The candidate loop of `_dispatch`, carrying the enumeration index. -/
def dispatchAux (name : String) (args : List Value)
    (kwargs : List (String × Value)) : List Fn → Nat → Except String Nat
  | [], _ => Except.error (noMatchMsg name)
  | fn :: rest, i =>
    if fnMatches fn args kwargs then Except.ok i
    else dispatchAux name args kwargs rest (i + 1)

/-- `FunctionOverload._dispatch`: the index of the first candidate that
accepts the call, or the no-matching-overload `TypeError`. -/
def FunctionOverload._dispatch (g : FunctionOverload) (args : List Value)
    (kwargs : List (String × Value)) : Except String Nat :=
  dispatchAux g.name args kwargs g.fns 0

/-- Invoking one candidate with the original arguments
(`self._fns[i](*args, **kwargs)`): the host binds the arguments to the
signature and runs the body; an `Except.error` is an exception raised by
the candidate itself. -/
def callFn (fn : Fn) (args : List Value) (kwargs : List (String × Value)) :
    Except String Value :=
  match bindArgs fn.params args kwargs with
  | none => Except.error "TypeError"
  | some bound => fn.body bound

/-- The two distinct ways a call of the dispatcher can raise: the
dispatcher's own no-matching-overload failure, or an exception
propagating out of the invoked candidate. -/
inductive CallError where
  | dispatchFailure (msg : String)
  | candidateError (e : String)
deriving DecidableEq

/-- `FunctionOverload.__call__`: run `_dispatch`, then invoke the selected
candidate with the original arguments and hand its outcome back
verbatim (the `candidateError` wrapper only records provenance; the
payload is the candidate's own exception, unmodified). -/
def FunctionOverload.call (g : FunctionOverload) (args : List Value)
    (kwargs : List (String × Value)) : Except CallError Value :=
  match g._dispatch args kwargs with
  | Except.error msg => Except.error (CallError.dispatchFailure msg)
  | Except.ok i =>
    match g.fns[i]? with
    | none => Except.error (CallError.candidateError "IndexError")
    | some fn => Except.mapError CallError.candidateError (callFn fn args kwargs)

/-- What may sit under a name in the caller's local scope. -/
inductive Binding where
  | group (g : FunctionOverload)
  | plainVal (v : Value)

/-- The caller's local binding table (`frame.f_locals`), modelled as an
explicit association list. -/
abbrev Scope := List (String × Binding)

/-- Lookup in the local binding table. -/
def scopeLookup : Scope → String → Option Binding
  | [], _ => none
  | (n, b) :: rest, nm => if n = nm then some b else scopeLookup rest nm

/-- Assignment `frame.f_locals[name] = value`. -/
def scopeSet : Scope → String → Binding → Scope
  | [], nm, b => [(nm, b)]
  | (n, b') :: rest, nm, b =>
    if n = nm then (nm, b) :: rest else (n, b') :: scopeSet rest nm b

/-- Errors raised on the decorator surface: `invalidRegistration` is the
`TypeError('expected function name as argument')`, and
`attributeError` models `.add` being invoked on a same-named scope
binding that is not a `FunctionOverload`. -/
inductive RegError where
  | invalidRegistration
  | attributeError
deriving DecidableEq

/-- The inner `decorator(fn, scope_level)` of `overload`: compute the
target name (`arg or fn.__name__`, so an empty string falls back to the
function's own name thanks to Python truthiness), reuse an existing
same-named binding from the caller's scope when there is one (calling
`.add` on it, which only works when it is a `FunctionOverload`) or
create a fresh group, add the candidate, and rebind the target name to
the group.  Returns the updated scope, the group and the ledger. -/
def decoratorStep (arg : Option String) (fn : Fn) (scope : Scope)
    (l : Ledger) : Except RegError (Scope × FunctionOverload × Ledger) :=
  let nm := match arg with
    | some s => if s = "" then fn.pyName else s
    | none => fn.pyName
  match scopeLookup scope nm with
  | some (Binding.group g) =>
    let gl := g.add fn l
    Except.ok (scopeSet scope nm (Binding.group gl.1), gl.1, gl.2)
  | some _ => Except.error RegError.attributeError
  | none =>
    let gl := (FunctionOverload.mk nm true []).add fn l
    Except.ok (scopeSet scope nm (Binding.group gl.1), gl.1, gl.2)

/-- The argument universe of the decorator surface `overload(arg)`: a
callable, a name string, `None`, or any other object (`other`, tagged so
that there are many of them). -/
inductive DecArg where
  | func (fn : Fn)
  | strName (s : String)
  | noneV
  | other (tag : Nat)

/-- The possible results of `overload(arg)`: the bare application path
registers at once and hands back the group; `None` and a string hand
back the inner decorator closure, remembering the optional explicit
name. -/
inductive OverloadResult where
  | registered (scope : Scope) (g : FunctionOverload) (l : Ledger)
  | decorator (nm : Option String)

/-- The decorator entry point `overload`: a callable argument is
registered directly (the code routes it through
`overload()(arg, scope_level=2)`); `None` falls through and a string is
kept as the explicit name, both returning the inner decorator; anything
else raises `TypeError('expected function name as argument')`. -/
def overloadFn (arg : DecArg) (scope : Scope) (l : Ledger) :
    Except RegError OverloadResult :=
  match arg with
  | DecArg.func fn =>
    match decoratorStep none fn scope l with
    | Except.ok sgl => Except.ok (OverloadResult.registered sgl.1 sgl.2.1 sgl.2.2)
    | Except.error e => Except.error e
  | DecArg.noneV => Except.ok (OverloadResult.decorator none)
  | DecArg.strName s => Except.ok (OverloadResult.decorator (some s))
  | DecArg.other _ => Except.error RegError.invalidRegistration

/-- Whether the candidate at position `j` of the sequence accepts the
call. -/
def fnMatchesAt (fns : List Fn) (j : Nat) (args : List Value)
    (kwargs : List (String × Value)) : Bool :=
  match fns[j]? with
  | some fn => fnMatches fn args kwargs
  | none => false

/-- Position of the first accepting candidate, if any. -/
def firstMatchIdx (args : List Value) (kwargs : List (String × Value)) :
    List Fn → Option Nat
  | [] => none
  | fn :: rest =>
    if fnMatches fn args kwargs then some 0
    else (firstMatchIdx args kwargs rest).map (fun j => j + 1)

/-- Replace a candidate's body, keeping its signature and identity. -/
def Fn.withBody (fn : Fn) (b : List (Param × Value) → Except String Value) :
    Fn :=
  { fn with body := b }

/-- Replace every candidate's body in a group. -/
def withBodies (g : FunctionOverload)
    (b : List (Param × Value) → Except String Value) : FunctionOverload :=
  { g with fns := g.fns.map (fun fn => fn.withBody b) }

/-- Rewrite a parameter's declared type, keeping name and default. -/
def Param.withAnn (p : Param) (f : Option PyType → Option PyType) : Param :=
  { p with ann := f p.ann }

/-- Rewrite every declared type in a group, keeping every parameter name
and default value. -/
def mapAnns (g : FunctionOverload) (f : Option PyType → Option PyType) :
    FunctionOverload :=
  { g with
    fns := g.fns.map (fun fn =>
      { fn with params := fn.params.map (fun p => p.withAnn f) }) }

/-- Concrete candidate `f(x: int)` returning `1`. -/
def fInt : Fn :=
  { module := "m", qualname := "f", firstlineno := 1, pyName := "f",
    params := [{ name := "x", ann := some PyType.int, dflt := none }],
    body := fun _ => Except.ok (Value.vInt 1) }

/-- Concrete candidate `f(x: str)` returning `2`. -/
def fStr : Fn :=
  { module := "m", qualname := "f", firstlineno := 5, pyName := "f",
    params := [{ name := "x", ann := some PyType.str, dflt := none }],
    body := fun _ => Except.ok (Value.vInt 2) }

/-- Concrete candidate `f(x: Any)` returning `3`. -/
def fAny : Fn :=
  { module := "m", qualname := "f", firstlineno := 9, pyName := "f",
    params := [{ name := "x", ann := some PyType.any, dflt := none }],
    body := fun _ => Except.ok (Value.vInt 3) }

/-- Concrete candidate `h(x)` (no annotation) that raises. -/
def fBoom : Fn :=
  { module := "m", qualname := "h", firstlineno := 13, pyName := "h",
    params := [{ name := "x", ann := none, dflt := none }],
    body := fun _ => Except.error "boom" }

/-- A group holding two copies of the `int` candidate. -/
def gC1 : FunctionOverload :=
  { name := "f", register := true, fns := [fInt, fInt] }

/-- A group holding only the `Any`-annotated candidate. -/
def gAny : FunctionOverload :=
  { name := "f", register := true, fns := [fAny] }

/-- A group holding only the `int` candidate. -/
def gOne : FunctionOverload :=
  { name := "f", register := true, fns := [fInt] }

/-- A group holding only the raising candidate. -/
def gBoom : FunctionOverload :=
  { name := "h", register := true, fns := [fBoom] }

/-- The same candidate list as `gOne` but with publication disabled. -/
def gOneNoReg : FunctionOverload :=
  { name := "f", register := false, fns := [fInt] }

/-- When no candidate accepts, the candidate loop reaches its end and
raises, whatever the enumeration index. -/
theorem dispatchAux_none (name : String) (a : List Value)
    (kw : List (String × Value)) :
    ∀ (fns : List Fn) (i : Nat), firstMatchIdx a kw fns = none →
      dispatchAux name a kw fns i = Except.error (noMatchMsg name) := by
  intro fns
  induction fns with
  | nil => intro i _; rfl
  | cons fn rest ih =>
    intro i h
    cases hb : fnMatches fn a kw with
    | true => simp [firstMatchIdx, hb] at h
    | false =>
      simp only [firstMatchIdx, hb, Bool.false_eq_true, if_false,
        Option.map_eq_none'] at h
      simp only [dispatchAux, hb, Bool.false_eq_true, if_false]
      exact ih (i + 1) h

/-- When the first accepting candidate sits at relative position `j`, the
candidate loop started at enumeration index `i` returns `i + j`. -/
theorem dispatchAux_some (name : String) (a : List Value)
    (kw : List (String × Value)) :
    ∀ (fns : List Fn) (i j : Nat), firstMatchIdx a kw fns = some j →
      dispatchAux name a kw fns i = Except.ok (i + j) := by
  intro fns
  induction fns with
  | nil => intro i j h; simp [firstMatchIdx] at h
  | cons fn rest ih =>
    intro i j h
    cases hb : fnMatches fn a kw with
    | true =>
      simp only [firstMatchIdx, hb, if_true] at h
      cases h
      simp [dispatchAux, hb]
    | false =>
      simp only [firstMatchIdx, hb, Bool.false_eq_true, if_false,
        Option.map_eq_some'] at h
      obtain ⟨j0, hj0, hj⟩ := h
      subst hj
      simp only [dispatchAux, hb, Bool.false_eq_true, if_false]
      rw [ih (i + 1) j0 hj0]
      congr 1
      omega

/-- A result of the first-match search is an accepting position and every
earlier position was rejected. -/
theorem firstMatchIdx_some_spec (a : List Value)
    (kw : List (String × Value)) :
    ∀ (fns : List Fn) (j : Nat), firstMatchIdx a kw fns = some j →
      fnMatchesAt fns j a kw = true ∧
      ∀ j' < j, fnMatchesAt fns j' a kw = false := by
  intro fns
  induction fns with
  | nil => intro j h; simp [firstMatchIdx] at h
  | cons fn rest ih =>
    intro j h
    cases hb : fnMatches fn a kw with
    | true =>
      simp only [firstMatchIdx, hb, if_true] at h
      cases h
      refine ⟨by simp [fnMatchesAt, hb], ?_⟩
      intro j' hj'
      omega
    | false =>
      simp only [firstMatchIdx, hb, Bool.false_eq_true, if_false,
        Option.map_eq_some'] at h
      obtain ⟨j0, hj0, hj⟩ := h
      subst hj
      obtain ⟨h1, h2⟩ := ih j0 hj0
      refine ⟨by simpa [fnMatchesAt] using h1, ?_⟩
      intro j' hj'
      cases j' with
      | zero => simp [fnMatchesAt, hb]
      | succ j'' => simpa [fnMatchesAt] using h2 j'' (by omega)

/-- If some position accepts, the first-match search succeeds with a
position at most that one. -/
theorem firstMatchIdx_le (a : List Value) (kw : List (String × Value)) :
    ∀ (fns : List Fn) (j : Nat), fnMatchesAt fns j a kw = true →
      ∃ i, firstMatchIdx a kw fns = some i ∧ i ≤ j := by
  intro fns
  induction fns with
  | nil => intro j h; simp [fnMatchesAt] at h
  | cons fn rest ih =>
    intro j h
    cases hb : fnMatches fn a kw with
    | true => exact ⟨0, by simp [firstMatchIdx, hb], Nat.zero_le j⟩
    | false =>
      cases j with
      | zero => simp [fnMatchesAt, hb] at h
      | succ j0 =>
        have h' : fnMatchesAt rest j0 a kw = true := by
          simpa [fnMatchesAt] using h
        obtain ⟨i0, hi0, hle⟩ := ih j0 h'
        exact ⟨i0 + 1, by simp [firstMatchIdx, hb, hi0], by omega⟩

/-- If every candidate is rejected, the first-match search fails. -/
theorem firstMatchIdx_eq_none (a : List Value)
    (kw : List (String × Value)) :
    ∀ (fns : List Fn), (∀ fn ∈ fns, fnMatches fn a kw = false) →
      firstMatchIdx a kw fns = none := by
  intro fns
  induction fns with
  | nil => intro _; rfl
  | cons fn rest ih =>
    intro h
    have hb := h fn (List.mem_cons_self fn rest)
    simp only [firstMatchIdx, hb, Bool.false_eq_true, if_false,
      Option.map_eq_none']
    exact ih (fun f hf => h f (List.mem_cons_of_mem fn hf))

/-- If the first-match search fails, every position is rejected. -/
theorem firstMatchIdx_none_at (a : List Value)
    (kw : List (String × Value)) :
    ∀ (fns : List Fn), firstMatchIdx a kw fns = none →
      ∀ j, fnMatchesAt fns j a kw = false := by
  intro fns
  induction fns with
  | nil => intro _ j; simp [fnMatchesAt]
  | cons fn rest ih =>
    intro h j
    cases hb : fnMatches fn a kw with
    | true => simp [firstMatchIdx, hb] at h
    | false =>
      simp only [firstMatchIdx, hb, Bool.false_eq_true, if_false,
        Option.map_eq_none'] at h
      cases j with
      | zero => simp [fnMatchesAt, hb]
      | succ j0 => simpa [fnMatchesAt] using ih h j0

/-- `_dispatch` succeeds with the position of the first accepting
candidate. -/
theorem dispatch_eq_ok_of (g : FunctionOverload) (a : List Value)
    (kw : List (String × Value)) (i : Nat)
    (h : firstMatchIdx a kw g.fns = some i) :
    g._dispatch a kw = Except.ok i := by
  have := dispatchAux_some g.name a kw g.fns 0 i h
  simpa [FunctionOverload._dispatch] using this

/-- `_dispatch` raises the no-matching-overload error when the first-match
search fails. -/
theorem dispatch_eq_err_of (g : FunctionOverload) (a : List Value)
    (kw : List (String × Value))
    (h : firstMatchIdx a kw g.fns = none) :
    g._dispatch a kw = Except.error (noMatchMsg g.name) :=
  dispatchAux_none g.name a kw g.fns 0 h

/-- Inversion: a successful `_dispatch` pins down the first match. -/
theorem dispatch_ok_inv (g : FunctionOverload) (a : List Value)
    (kw : List (String × Value)) (i : Nat)
    (h : g._dispatch a kw = Except.ok i) :
    firstMatchIdx a kw g.fns = some i := by
  cases hf : firstMatchIdx a kw g.fns with
  | none =>
    rw [dispatch_eq_err_of g a kw hf] at h
    exact absurd h (by simp)
  | some j =>
    rw [dispatch_eq_ok_of g a kw j hf] at h
    cases h
    rfl

/-- Inversion: a raising `_dispatch` means the search failed, and its
message is the diagnostic one. -/
theorem dispatch_err_inv (g : FunctionOverload) (a : List Value)
    (kw : List (String × Value)) (m : String)
    (h : g._dispatch a kw = Except.error m) :
    firstMatchIdx a kw g.fns = none ∧ m = noMatchMsg g.name := by
  cases hf : firstMatchIdx a kw g.fns with
  | none =>
    rw [dispatch_eq_err_of g a kw hf] at h
    cases h
    exact ⟨rfl, rfl⟩
  | some j =>
    rw [dispatch_eq_ok_of g a kw j hf] at h
    exact absurd h (by simp)

/-- A successful `_dispatch` points at an existing, accepting candidate. -/
theorem dispatch_ok_candidate (g : FunctionOverload) (a : List Value)
    (kw : List (String × Value)) (i : Nat)
    (h : g._dispatch a kw = Except.ok i) :
    ∃ fn, g.fns[i]? = some fn ∧ fnMatches fn a kw = true := by
  have hf := dispatch_ok_inv g a kw i h
  have hm := (firstMatchIdx_some_spec a kw g.fns i hf).1
  unfold fnMatchesAt at hm
  cases hfn : g.fns[i]? with
  | none => rw [hfn] at hm; exact absurd hm (by simp)
  | some fn => rw [hfn] at hm; exact ⟨fn, rfl, hm⟩

/-- When every candidate is rejected, the call raises the dispatch
failure with the diagnostic message. -/
theorem call_noMatch (g : FunctionOverload) (a : List Value)
    (kw : List (String × Value))
    (h : ∀ fn ∈ g.fns, fnMatches fn a kw = false) :
    g.call a kw =
      Except.error (CallError.dispatchFailure (noMatchMsg g.name)) := by
  have hf := firstMatchIdx_eq_none a kw g.fns h
  have hd := dispatch_eq_err_of g a kw hf
  simp [FunctionOverload.call, hd]

/-- When dispatch selects a candidate, the call's outcome is exactly that
candidate's outcome (tagged with its provenance). -/
theorem call_eq_candidate (g : FunctionOverload) (a : List Value)
    (kw : List (String × Value)) (i : Nat) (fn : Fn)
    (hd : g._dispatch a kw = Except.ok i) (hfn : g.fns[i]? = some fn) :
    g.call a kw =
      Except.mapError CallError.candidateError (callFn fn a kw) := by
  simp [FunctionOverload.call, hd, hfn]

/-- The per-parameter check against a concrete (non-`Any`) declared type
reduces to the host instance check. -/
theorem checkOne_some_eq (t : PyType) (ht : t ≠ PyType.any) (v : Value) :
    checkOne (some t) v =
      if instOf v t = true then Except.ok () else Except.error () := by
  have h0 : checkOne (some t) v =
      (match (if t = PyType.any then Except.error ()
          else Except.ok (instOf v t) : Except Unit Bool) with
        | Except.error e => Except.error e
        | Except.ok true => Except.ok ()
        | Except.ok false =>
          if t = PyType.any then Except.ok () else Except.error ()) := rfl
  rw [h0, if_neg ht]
  cases hio : instOf v t with
  | true => simp
  | false => simp [ht]

/-- The type-check loop raises as soon as one bound argument fails. -/
theorem checkAll_error_of_mem :
    ∀ (bound : List (Param × Value)) (p : Param) (v : Value),
      (p, v) ∈ bound → checkOne p.ann v = Except.error () →
      checkAll bound = Except.error () := by
  intro bound
  induction bound with
  | nil => intro p v h _; simp at h
  | cons qv rest ih =>
    intro p v h hc
    obtain ⟨q, w⟩ := qv
    rcases List.mem_cons.mp h with heq | hmem
    · injection heq with h1 h2
      subst h1
      subst h2
      simp [checkAll, hc]
    · cases hch : checkOne q.ann w with
      | error e => simp [checkAll, hch]
      | ok u => simp [checkAll, hch]; exact ih p v hmem hc

/-- Rewriting declared types does not disturb the binding of the
keyword/default tail: the bound list is rewritten pointwise. -/
theorem bindRest_map_withAnn (kw : List (String × Value))
    (f : Option PyType → Option PyType) :
    ∀ (ps : List Param),
      bindRest kw (ps.map (fun p => p.withAnn f)) =
        (bindRest kw ps).map
          (List.map (fun pv : Param × Value => (pv.1.withAnn f, pv.2))) := by
  intro ps
  induction ps with
  | nil => rfl
  | cons p rest ih =>
    have hname : (p.withAnn f).name = p.name := rfl
    have hdflt : (p.withAnn f).dflt = p.dflt := rfl
    simp only [List.map_cons, bindRest, hname, hdflt, ih]
    cases h : lookupKw kw p.name with
    | some v => cases hr : bindRest kw rest <;> simp
    | none =>
      cases hd : p.dflt with
      | some d => cases hr : bindRest kw rest <;> simp
      | none => rfl

/-- Rewriting declared types does not disturb argument binding at all:
the whole bound argument list is rewritten pointwise (in particular a
binding failure stays a binding failure). -/
theorem bindArgs_mapAnns (f : Option PyType → Option PyType)
    (a : List Value) (kw : List (String × Value)) (ps : List Param) :
    bindArgs (ps.map (fun p => p.withAnn f)) a kw =
      (bindArgs ps a kw).map
        (List.map (fun pv : Param × Value => (pv.1.withAnn f, pv.2))) := by
  unfold bindArgs
  have hlen : (ps.map (fun p => p.withAnn f)).length = ps.length :=
    List.length_map ps _
  rw [hlen]
  by_cases h1 : ps.length < a.length
  · simp [h1]
  · rw [if_neg h1, if_neg h1]
    have e2 : (fun kv : String × Value =>
        !((ps.map (fun p => p.withAnn f)).any (fun p => p.name == kv.1))) =
        (fun kv : String × Value => !(ps.any (fun p => p.name == kv.1))) := by
      funext kv
      rw [List.any_map]
      rfl
    rw [e2]
    by_cases h2 : kw.any (fun kv => !(ps.any (fun p => p.name == kv.1)))
    · simp [h2]
    · rw [if_neg h2, if_neg h2]
      have htake : (ps.map (fun p => p.withAnn f)).take a.length =
          (ps.take a.length).map (fun p => p.withAnn f) := by
        rw [List.map_take]
      have e3 : (fun kv : String × Value =>
          ((ps.map (fun p => p.withAnn f)).take a.length).any
            (fun p => p.name == kv.1)) =
          (fun kv : String × Value =>
            (ps.take a.length).any (fun p => p.name == kv.1)) := by
        funext kv
        rw [htake, List.any_map]
        rfl
      rw [e3]
      by_cases h3 : kw.any (fun kv =>
          (ps.take a.length).any (fun p => p.name == kv.1))
      · simp [h3]
      · rw [if_neg h3, if_neg h3]
        have hdrop : (ps.map (fun p => p.withAnn f)).drop a.length =
            (ps.drop a.length).map (fun p => p.withAnn f) := by
          rw [List.map_drop]
        rw [hdrop, bindRest_map_withAnn]
        cases bindRest kw (ps.drop a.length) with
        | none => rfl
        | some r =>
          show some _ = some _
          congr 1
          rw [htake, List.map_append]
          congr 1
          rw [List.zip_map_left]
          rfl

/-- Looking the name up right after the rebinding assignment finds the
just-stored binding. -/
theorem scopeLookup_scopeSet (b : Binding) :
    ∀ (s : Scope) (nm : String),
      scopeLookup (scopeSet s nm b) nm = some b := by
  intro s
  induction s with
  | nil => intro nm; simp [scopeSet, scopeLookup]
  | cons nb rest ih =>
    intro nm
    obtain ⟨n, b'⟩ := nb
    by_cases h : n = nm
    · subst h; simp [scopeSet, scopeLookup]
    · simp [scopeSet, scopeLookup, h, ih]

/-- Shifting the enumeration index of the candidate loop shifts a
successful result and leaves a failure alone. -/
theorem dispatchAux_shift (name : String) (a : List Value)
    (kw : List (String × Value)) (fns : List Fn) (i : Nat) :
    dispatchAux name a kw fns i =
      Except.map (fun j => j + i) (dispatchAux name a kw fns 0) := by
  cases hf : firstMatchIdx a kw fns with
  | none => rw [dispatchAux_none name a kw fns i hf,
      dispatchAux_none name a kw fns 0 hf]; rfl
  | some j =>
    rw [dispatchAux_some name a kw fns i j hf,
      dispatchAux_some name a kw fns 0 j hf]
    show Except.ok (i + j) = Except.ok (0 + j + i)
    congr 1
    omega

/-- C1: Candidates are tried strictly in registration order: whenever the
candidates at positions `j` and `j + 1` would both bind and pass the
type checks, `_dispatch` succeeds with an index that is at most `j` and
never `j + 1` (the earlier of the two wins); the selected candidate
itself matches, every earlier candidate was tried and rejected, and the
selected index is exactly `j` as soon as no candidate before `j`
matches. -/
theorem c1_registration_order (g : FunctionOverload) (a : List Value)
    (kw : List (String × Value)) (j : Nat)
    (h1 : fnMatchesAt g.fns j a kw = true)
    (_h2 : fnMatchesAt g.fns (j + 1) a kw = true) :
    ∃ i, g._dispatch a kw = Except.ok i ∧ i ≤ j ∧ i ≠ j + 1 ∧
      fnMatchesAt g.fns i a kw = true ∧
      (∀ j' < i, fnMatchesAt g.fns j' a kw = false) ∧
      ((∀ j' < j, fnMatchesAt g.fns j' a kw = false) → i = j) := by
  obtain ⟨i, hi, hle⟩ := firstMatchIdx_le a kw g.fns j h1
  obtain ⟨hm, hmin⟩ := firstMatchIdx_some_spec a kw g.fns i hi
  refine ⟨i, dispatch_eq_ok_of g a kw i hi, hle, by omega, hm, hmin, ?_⟩
  intro hall
  by_contra hne
  have hlt : i < j := by omega
  have hfalse := hall i hlt
  rw [hm] at hfalse
  exact absurd hfalse (by simp)

/-- C1 witness: in a group made of two identical `int` candidates, both
position 0 and position 1 accept the call with argument `7`, and the
dispatcher selects position 0. -/
theorem c1_witness :
    ∃ i, gC1._dispatch [Value.vInt 7] [] = Except.ok i ∧ i ≤ 0 := by
  obtain ⟨i, hd, hle, -, -, -, -⟩ :=
    c1_registration_order gC1 [Value.vInt 7] [] 0 rfl rfl
  exact ⟨i, hd, hle⟩

/-- C2: code bug.  On a parameter annotated `typing.Any`, the dispatcher
evaluates `isinstance(value, typ)` first; in CPython that call itself
raises `TypeError`, which the candidate loop catches as a mismatch, so
the later `elif typ is Any` accept-branch is unreachable.  Consequently
the per-parameter check rejects every value, the candidate falls
through, and calling a single-candidate group `f(x: Any)` with the
argument `1` raises the no-matching-overload failure instead of invoking
the candidate — contradicting both the spec and the code's own
explicit `Any` branch. -/
theorem c2_any_marker_rejected :
    checkOne (some PyType.any) (Value.vInt 1) = Except.error () ∧
    fnMatches fAny [Value.vInt 1] [] = false ∧
    gAny.call [Value.vInt 1] [] =
      Except.error (CallError.dispatchFailure (noMatchMsg "f")) :=
  ⟨rfl, rfl, rfl⟩

/-- C3: when no candidate both binds and passes the type checks, `call`
raises the dispatch-failure error whose message interpolates the group's
name, and no candidate is invoked — the outcome is unchanged under
arbitrary replacement of every candidate body; and when binding alone
fails for every candidate the same failure is raised however the
declared types are rewritten, i.e. regardless of type annotations. -/
theorem c3_no_match_raises (g : FunctionOverload) (a : List Value)
    (kw : List (String × Value))
    (h : ∀ fn ∈ g.fns, fnMatches fn a kw = false) :
    g.call a kw =
      Except.error (CallError.dispatchFailure (noMatchMsg g.name)) ∧
    noMatchMsg g.name =
      "no matching overload for function `" ++ g.name ++
        "` and call signature" ∧
    (∀ b, (withBodies g b).call a kw =
      Except.error (CallError.dispatchFailure (noMatchMsg g.name))) ∧
    (∀ f, (∀ fn ∈ g.fns, bindArgs fn.params a kw = none) →
      (mapAnns g f).call a kw =
        Except.error (CallError.dispatchFailure (noMatchMsg g.name))) := by
  refine ⟨call_noMatch g a kw h, rfl, ?_, ?_⟩
  · intro b
    have hb : ∀ fn ∈ (withBodies g b).fns, fnMatches fn a kw = false := by
      intro fn hfn
      simp only [withBodies, List.mem_map] at hfn
      obtain ⟨fn0, hfn0, rfl⟩ := hfn
      exact h fn0 hfn0
    exact call_noMatch (withBodies g b) a kw hb
  · intro f hbind
    have hb : ∀ fn ∈ (mapAnns g f).fns, fnMatches fn a kw = false := by
      intro fn hfn
      simp only [mapAnns, List.mem_map] at hfn
      obtain ⟨fn0, hfn0, rfl⟩ := hfn
      have hnone : bindArgs (fn0.params.map (fun p => p.withAnn f)) a kw
          = none := by
        rw [bindArgs_mapAnns, hbind fn0 hfn0]
        rfl
      simp [fnMatches, hnone]
    exact call_noMatch (mapAnns g f) a kw hb

/-- C3 witness: the single-candidate group `f(x: int)` called with a
string binds but fails the type check, so the call raises the
dispatch-failure error carrying the group's name. -/
theorem c3_witness :
    gOne.call [Value.vStr "nope"] [] =
      Except.error (CallError.dispatchFailure (noMatchMsg "f")) := by
  have h : ∀ fn ∈ gOne.fns, fnMatches fn [Value.vStr "nope"] [] = false := by
    intro fn hfn
    have he : fn = fInt := List.mem_singleton.mp hfn
    subst he
    rfl
  exact (c3_no_match_raises gOne [Value.vStr "nope"] [] h).1

/-- C4: only exhaustion of all candidates is surfaced, and it is surfaced
as the dispatch-failure error, distinct by construction from an ordinary
candidate exception; when `_dispatch` selects a candidate, the call's
outcome is exactly that candidate's outcome — an exception raised
inside it surfaces with its payload unchanged, never caught or wrapped
into a dispatch failure — and conversely a dispatch-failure outcome can
arise only when every candidate position was rejected. -/
theorem c4_error_propagation (g : FunctionOverload) (a : List Value)
    (kw : List (String × Value)) :
    (∀ i fn, g._dispatch a kw = Except.ok i → g.fns[i]? = some fn →
      g.call a kw =
        Except.mapError CallError.candidateError (callFn fn a kw)) ∧
    (∀ m, g.call a kw = Except.error (CallError.dispatchFailure m) →
      m = noMatchMsg g.name ∧ ∀ j, fnMatchesAt g.fns j a kw = false) := by
  constructor
  · intro i fn hd hfn
    exact call_eq_candidate g a kw i fn hd hfn
  · intro m hm
    cases hd : g._dispatch a kw with
    | error msg =>
      obtain ⟨hf, rfl⟩ := dispatch_err_inv g a kw msg hd
      have hc : g.call a kw =
          Except.error (CallError.dispatchFailure (noMatchMsg g.name)) := by
        simp [FunctionOverload.call, hd]
      rw [hc] at hm
      injection hm with hm'
      injection hm' with hm''
      exact ⟨hm''.symm, firstMatchIdx_none_at a kw g.fns hf⟩
    | ok i =>
      obtain ⟨fn, hfn, -⟩ := dispatch_ok_candidate g a kw i hd
      have hc := call_eq_candidate g a kw i fn hd hfn
      rw [hc] at hm
      cases hcf : callFn fn a kw with
      | ok v => rw [hcf] at hm; exact absurd hm (by simp [Except.mapError])
      | error e => rw [hcf] at hm; exact absurd hm (by simp [Except.mapError])

/-- C4 witness: in the group whose sole candidate raises `boom`, the call
matches that candidate and surfaces its exception with the payload
unchanged, not a dispatch failure. -/
theorem c4_witness :
    gBoom.call [Value.vInt 0] [] =
      Except.error (CallError.candidateError "boom") := by
  have h := (c4_error_propagation gBoom [Value.vInt 0] []).1 0 fBoom rfl rfl
  exact h.trans rfl

/-- C5: a parameter with a concrete declared type (not the `Any` marker)
accepts exactly the values passing the host instance check; a candidate
one of whose bound arguments fails that check is rejected, and the
rejection is silent — dispatch on the group continues with the
remaining candidates (the selected index merely shifts by one), so the
call falls through to a later candidate or, when none survives, to the
dispatch failure. -/
theorem c5_concrete_type_check (t : PyType) (ht : t ≠ PyType.any) :
    (∀ v, checkOne (some t) v = Except.ok () ↔ instOf v t = true) ∧
    (∀ (fn : Fn) (a : List Value) (kw : List (String × Value)) bound p v,
      bindArgs fn.params a kw = some bound → (p, v) ∈ bound →
      p.ann = some t → instOf v t = false →
      fnMatches fn a kw = false) ∧
    (∀ (g : FunctionOverload) (fn : Fn) rest (a : List Value)
        (kw : List (String × Value)), g.fns = fn :: rest →
      fnMatches fn a kw = false →
      g._dispatch a kw =
        Except.map (fun i => i + 1)
          ((FunctionOverload.mk g.name g.register rest)._dispatch a kw)) := by
  refine ⟨?_, ?_, ?_⟩
  · intro v
    rw [checkOne_some_eq t ht v]
    cases hio : instOf v t with
    | true => simp
    | false => simp
  · intro fn a kw bound p v hbind hmem hann hinst
    have hco : checkOne p.ann v = Except.error () := by
      rw [hann, checkOne_some_eq t ht v, hinst]
      rfl
    have hall := checkAll_error_of_mem bound p v hmem hco
    simp [fnMatches, hbind, hall]
  · intro g fn rest a kw hg hb
    show dispatchAux g.name a kw g.fns 0 = _
    rw [hg]
    simp only [dispatchAux, hb, Bool.false_eq_true, if_false]
    exact dispatchAux_shift g.name a kw rest 1

/-- C5 witness: the concrete class `str` accepts a string and rejects an
integer. -/
theorem c5_witness :
    checkOne (some PyType.str) (Value.vStr "a") = Except.ok () ∧
    checkOne (some PyType.str) (Value.vInt 3) ≠ Except.ok () := by
  have h := (c5_concrete_type_check PyType.str (by decide)).1
  refine ⟨(h (Value.vStr "a")).mpr rfl, ?_⟩
  intro hc
  have hbad := (h (Value.vInt 3)).mp hc
  exact absurd hbad (by decide)

/-- C6: a parameter with no declared type accepts any value: its check
succeeds for every value, and its presence among the bound arguments
never changes the outcome of the type-check loop. -/
theorem c6_unannotated_accepts :
    (∀ v, checkOne none v = Except.ok ()) ∧
    (∀ (p : Param) (v : Value) rest, p.ann = none →
      checkAll ((p, v) :: rest) = checkAll rest) := by
  refine ⟨fun v => rfl, ?_⟩
  intro p v rest h
  simp [checkAll, h, checkOne]

/-- C6 witness: an unannotated parameter bound to an arbitrary object
leaves the type-check loop's outcome untouched. -/
theorem c6_witness :
    checkAll [({ name := "x", ann := none, dflt := none }, Value.vObj 0)] =
      checkAll [] :=
  c6_unannotated_accepts.2 { name := "x", ann := none, dflt := none }
    (Value.vObj 0) [] rfl

/-- C7 counterexample: `None` is neither a string nor a callable, yet the
decorator surface accepts it — `overload(None)` falls through the
`arg is None` branch and returns the inner decorator instead of raising
the invalid-registration error. -/
theorem c7_counterexample :
    overloadFn DecArg.noneV [] [] =
      Except.ok (OverloadResult.decorator none) :=
  rfl

/-- C7 (amended): every argument to the decorator surface that is neither
a string, nor `None`, nor a callable raises the invalid-registration
`TypeError('expected function name as argument')`. -/
theorem c7_invalid_arg_raises (tag : Nat) (scope : Scope) (l : Ledger) :
    overloadFn (DecArg.other tag) scope l =
      Except.error RegError.invalidRegistration :=
  rfl

/-- C8: when a second definition is registered under a name whose current
binding in the enclosing scope is an `OverloadGroup`, the registrar
appends the new candidate to that existing group — same group name,
candidate list extended from length 1 to length 2 — and rebinds the
scope name to that group, instead of creating a second independent
group. -/
theorem c8_same_scope_extends_group (scope : Scope) (l : Ledger)
    (nm : String) (g : FunctionOverload) (fn : Fn)
    (hn : nm ≠ "")
    (hlook : scopeLookup scope nm = some (Binding.group g))
    (hone : g.fns.length = 1) :
    ∃ g' scope' l',
      decoratorStep (some nm) fn scope l = Except.ok (scope', g', l') ∧
      g'.fns = g.fns ++ [fn] ∧ g'.fns.length = 2 ∧ g'.name = g.name ∧
      scopeLookup scope' nm = some (Binding.group g') := by
  refine ⟨(g.add fn l).1, scopeSet scope nm (Binding.group (g.add fn l).1),
    (g.add fn l).2, ?_, rfl, ?_, rfl, scopeLookup_scopeSet _ scope nm⟩
  · unfold decoratorStep
    simp [hn, hlook]
  · show (g.fns ++ [fn]).length = 2
    simp [hone]

/-- C8 witness: registering `f(x: str)` while the scope already binds
`f` to the one-candidate group of `f(x: int)` extends that group to two
candidates and rebinds the name to it. -/
theorem c8_witness :
    ∃ g' scope' l',
      decoratorStep (some "f") fStr [("f", Binding.group gOne)] [] =
        Except.ok (scope', g', l') ∧
      g'.fns = gOne.fns ++ [fStr] ∧ g'.fns.length = 2 ∧
      g'.name = gOne.name ∧
      scopeLookup scope' "f" = some (Binding.group g') :=
  c8_same_scope_extends_group [("f", Binding.group gOne)] [] "f" gOne fStr
    (by decide) rfl rfl

/-- C9: `add` appends the candidate at the end of the ordered sequence,
keeps the existing candidates untouched in place (the old sequence is a
prefix of the new one — append-only, no removal or reordering), returns
the updated group itself so registration can be chained, always
succeeds with no deduplication of repeated candidates, and publishes
the candidate to the external ledger under (defining module, qualified
name, source line) exactly when publication is enabled. -/
theorem c9_add_append (g : FunctionOverload) (fn : Fn) (l : Ledger) :
    (g.add fn l).1.fns = g.fns ++ [fn] ∧
    (g.add fn l).1.name = g.name ∧
    (g.add fn l).1.register = g.register ∧
    (g.add fn l).1.fns.take g.fns.length = g.fns ∧
    (g.register = true →
      (g.add fn l).2 =
        ledgerSet l (fn.module, fn.qualname, fn.firstlineno) fn) ∧
    (g.register = false → (g.add fn l).2 = l) := by
  refine ⟨rfl, rfl, rfl, ?_, ?_, ?_⟩
  · show (g.fns ++ [fn]).take g.fns.length = g.fns
    simp
  · intro h
    show (if g.register then _ else l) = _
    rw [h, if_pos rfl]
  · intro h
    show (if g.register then _ else l) = l
    rw [h]
    rfl

/-- C9 witness: adding the `str` candidate to the one-candidate group
appends it at the end and publishes it in the ledger under its module,
qualified name and first line. -/
theorem c9_witness :
    (gOne.add fStr []).1.fns = [fInt, fStr] ∧
    (gOne.add fStr []).2 = [(("m", "f", 5), fStr)] := by
  have h := c9_add_append gOne fStr []
  exact ⟨h.1.trans rfl, (h.2.2.2.2.1 rfl).trans rfl⟩

/-- C10: dispatch is a deterministic pure function of the group's
candidate sequence and the arguments: two groups with the same candidate
sequence select the same index for the same call (whatever their
`register` flags or names), and with equal names their call outcomes
coincide — so invoking `call` twice with identical arguments on an
unmutated group yields the same selected candidate and the same
result. -/
theorem c10_deterministic_dispatch (g1 g2 : FunctionOverload)
    (a : List Value) (kw : List (String × Value))
    (hf : g1.fns = g2.fns) :
    (∀ i, g1._dispatch a kw = Except.ok i ↔ g2._dispatch a kw = Except.ok i) ∧
    (g1.name = g2.name → g1.call a kw = g2.call a kw) := by
  constructor
  · intro i
    constructor
    · intro h
      exact dispatch_eq_ok_of g2 a kw i (hf ▸ dispatch_ok_inv g1 a kw i h)
    · intro h
      exact dispatch_eq_ok_of g1 a kw i (hf ▸ dispatch_ok_inv g2 a kw i h)
  · intro hn
    unfold FunctionOverload.call FunctionOverload._dispatch
    rw [hf, hn]

/-- C10 witness: the same candidate sequence under two different
`register` flags produces the same call outcome. -/
theorem c10_witness :
    gOne.call [Value.vInt 4] [] = gOneNoReg.call [Value.vInt 4] [] :=
  (c10_deterministic_dispatch gOne gOneNoReg [Value.vInt 4] [] rfl).2 rfl

end Overload
